import Mathlib

set_option autoImplicit false

namespace McpXray

/-!
Shallow embedding of the `mcp_xray.io` data-loading subsystem
(`src/mcp_xray/io/fetchers.py`, `readers.py`, `validators.py`).

Pure Python functions become Lean functions; the filesystem and the
network are passed explicitly as a `World`; external-library behaviour
(`json.loads`, `yaml.safe_load`, the text of `httpx` status errors) is
passed explicitly as `Libs`; exceptions become `Except PyError`;
the fetch side effects of a call are returned as an explicit trace.
-/

/-- Parsed structured values (the JSON/YAML data model: mappings,
sequences, scalars). -/
inductive Value where
  | null
  | bool (b : Bool)
  | int (n : Int)
  | str (s : String)
  | arr (xs : List Value)
  | dict (fields : List (String × Value))

/-- The error taxonomy of the loading pipeline.  `connectionError` and
`valueError` carry, besides the message, the stringified original cause
(the Python code raises them with `from e`). -/
inductive PyError where
  | unsupportedScheme (msg : String)
  | unsupportedExtension (msg : String)
  | fileNotFound (msg : String)
  | connectionError (msg : String) (cause : String)
  | valueError (msg : String) (cause : String)
  deriving DecidableEq

/-- Observable fetch effects of a `load_from` call: a filesystem access by
the file fetcher, or an HTTP GET by the HTTP fetcher. -/
inductive Effect where
  | fsAccess (location : String)
  | httpGet (url : String)
  deriving DecidableEq

/-- Model of a Python `dict` as an insertion-ordered association list with
unique keys: lookup by key. -/
def dictGet {α : Type} : List (String × α) → String → Option α
  | [], _ => none
  | (k, v) :: rest, key => if k = key then some v else dictGet rest key

/-- Model of Python `dict` key assignment: an existing key keeps its
position and gets the new value, a new key is appended. -/
def dictSet {α : Type} : List (String × α) → String → α → List (String × α)
  | [], key, value => [(key, value)]
  | (k, v) :: rest, key, value =>
    if k = key then (key, value) :: rest else (k, v) :: dictSet rest key value

/-- Model of Python `str.lower` on a single character, restricted to
ASCII (all schemes and extensions in this system are ASCII). -/
def lowerChar (c : Char) : Char :=
  if 65 ≤ c.toNat ∧ c.toNat ≤ 90 then Char.ofNat (c.toNat + 32) else c

/-- Model of Python `str.lower` (ASCII range). -/
def pyLower (s : String) : String :=
  String.mk (s.toList.map lowerChar)

/-- Characters allowed in a URL scheme after the first one
(`urllib.parse`: letters, digits, `+`, `-`, `.`). -/
def schemeChar (c : Char) : Bool :=
  c.isAlphanum || c == '+' || c == '-' || c == '.'

/-- Model of the scheme-splitting step of `urllib.parse.urlsplit`: if the
text before the first `:` is a nonempty run of scheme characters starting
with a letter, it is the scheme and the remainder follows the `:`;
otherwise there is no scheme. -/
def splitScheme (url : List Char) : Option (List Char × List Char) :=
  let pre := url.takeWhile (fun c => c != ':')
  match url.dropWhile (fun c => c != ':') with
  | ':' :: rest =>
    match pre with
    | [] => none
    | c :: _ => if c.isAlpha && pre.all schemeChar then some (pre, rest) else none
  | _ => none

/-- The `scheme` attribute of `urllib.parse.urlparse(s)` (lower-cased by
the library), `""` when absent. -/
def urlScheme (s : String) : String :=
  match splitScheme s.toList with
  | some (sch, _) => pyLower (String.mk sch)
  | none => ""

/-- Drops a leading `//netloc` part (netloc ends at the first `/`, `?`
or `#`), as `urllib.parse.urlsplit` does after removing the scheme. -/
def stripNetloc : List Char → List Char
  | '/' :: '/' :: rest => rest.dropWhile (fun c => c != '/' && c != '?' && c != '#')
  | cs => cs

/-- The `path` attribute of `urllib.parse.urlparse(s)`: what remains
after the scheme and netloc, truncated at the first `?` or `#`. -/
def urlPath (s : String) : String :=
  let rest :=
    match splitScheme s.toList with
    | some (_, r) => r
    | none => s.toList
  String.mk ((stripNetloc rest).takeWhile (fun c => c != '?' && c != '#'))

/-- Splitting a character list at every `/` (the model of
`str.split("/")`): splitting the empty string gives one empty group. -/
def splitOnSlash : List Char → List (List Char)
  | [] => [[]]
  | '/' :: rest => [] :: splitOnSlash rest
  | c :: rest =>
    match splitOnSlash rest with
    | [] => [[c]]
    | g :: gs => (c :: g) :: gs

/-- The final component (`name`) of `pathlib.PurePath`: the last
`/`-separated component, with empty and `.` components dropped. -/
def pathName (p : String) : String :=
  String.mk ((((splitOnSlash p.toList).filter
    (fun c => c ≠ [] ∧ c ≠ ['.'])).getLast?).getD [])

/-- `pathlib`'s `suffix` of a file name: the part of the name from its
last dot on, empty when the name has no dot, starts with its only dot
(hidden file), or ends with the dot. -/
def nameSuffix (name : String) : String :=
  let cs := name.toList
  let tail := (cs.reverse.takeWhile (fun c => c != '.')).reverse
  if cs.contains '.' ∧ tail ≠ [] ∧ tail.length + 1 < cs.length then
    String.mk ('.' :: tail)
  else
    ""

/-- `pathlib.Path(p).suffix`. -/
def pathSuffix (p : String) : String :=
  nameSuffix (pathName p)

/-- The outcome the network gives to one HTTP GET: a transport-level
failure (with the library error text) or a response with a status code
and a body. -/
inductive GetResult where
  | transportError (err : String)
  | response (status : Nat) (body : String)

/-- The external world a load runs against: `fs p` is the content of the
existing regular file at path `p` (`none` when `p` is not an existing
regular file — directories count as missing), `net u` is the outcome of
an HTTP GET of `u`. -/
structure World where
  fs : String → Option String
  net : String → GetResult

/-- External-library behaviour the code delegates to: `json.loads`,
`yaml.safe_load` (each returning the parsed value or the stringified
parse error), and the message `str(e)` of an `httpx` status error for a
given status code and URL. -/
structure Libs where
  json_loads : String → Except String Value
  yaml_safe_load : String → Except String Value
  status_error : Nat → String → String

/-- `FileContentFetcher.fetch`: error when the path is not an existing
regular file, else the file's text. -/
def FileContentFetcher.fetch (fs : String → Option String) (location : String) :
    Except PyError String :=
  match fs location with
  | none => .error (.fileNotFound ("File does not exist: " ++ location))
  | some content => .ok content

/-- `httpx` success statuses (`response.raise_for_status` passes exactly
the 2xx range through). -/
def is_success (status : Nat) : Bool :=
  200 ≤ status && status ≤ 299

/-- `HttpContentFetcher`: holds the timeout it was constructed with
(default 30.0). -/
structure HttpContentFetcher where
  timeout : Nat

/-- `HttpContentFetcher.fetch`: one GET inside a scoped client; any
`httpx.HTTPError` (transport failure, or the status error raised by
`raise_for_status`) becomes a `ConnectionError` built as
`"Failed to fetch from {location}: {e}"` raised `from e`.  The second
component records every URL GETted by the call, in order. -/
def HttpContentFetcher.fetch (libs : Libs) (net : String → GetResult)
    (_self : HttpContentFetcher) (location : String) :
    Except PyError String × List String :=
  let result :=
    match net location with
    | .transportError e =>
      .error (.connectionError ("Failed to fetch from " ++ location ++ ": " ++ e) e)
    | .response status body =>
      if is_success status then
        .ok body
      else
        let cause := libs.status_error status location
        .error (.connectionError ("Failed to fetch from " ++ location ++ ": " ++ cause) cause)
  (result, [location])

/-- The fetcher classes a scheme can map to: the two classes of
`fetchers.py`, or a user-registered one (modelled by its fetch
behaviour, including the effects it performs). -/
inductive FetcherClass where
  | fileFetcher
  | httpFetcher
  | custom (fetchImpl : World → String → Except PyError String × List Effect)

/-- Instantiating a fetcher class with no arguments and calling `fetch`
on the instance; paired with the fetch effects the call performs. -/
def FetcherClass.fetch (libs : Libs) (w : World) :
    FetcherClass → String → Except PyError String × List Effect
  | .fileFetcher, location => (FileContentFetcher.fetch w.fs location, [.fsAccess location])
  | .httpFetcher, location =>
    let r := HttpContentFetcher.fetch libs w.net ⟨30⟩ location
    (r.1, r.2.map .httpGet)
  | .custom f, location => f w location

/-- `JsonReader.read_content`: `json.loads`, re-raising a parse failure
as `ValueError("Invalid JSON content: {e}")` from `e`. -/
def JsonReader.read_content (json_loads : String → Except String Value) (content : String) :
    Except PyError Value :=
  match json_loads content with
  | .ok v => .ok v
  | .error e => .error (.valueError ("Invalid JSON content: " ++ e) e)

/-- `YamlReader.read_content`: `yaml.safe_load`, re-raising a parse
failure as `ValueError("Invalid YAML content: {e}")` from `e`. -/
def YamlReader.read_content (yaml_safe_load : String → Except String Value) (content : String) :
    Except PyError Value :=
  match yaml_safe_load content with
  | .ok v => .ok v
  | .error e => .error (.valueError ("Invalid YAML content: " ++ e) e)

/-- The reader classes an extension can map to: the two classes of
`readers.py`, or a user-registered one. -/
inductive ReaderClass where
  | jsonReader
  | yamlReader
  | custom (readImpl : String → Except PyError Value)

/-- Instantiating a reader class and calling `read_content`. -/
def ReaderClass.read_content (libs : Libs) : ReaderClass → String → Except PyError Value
  | .jsonReader, content => JsonReader.read_content libs.json_loads content
  | .yamlReader, content => YamlReader.read_content libs.yaml_safe_load content
  | .custom f, content => f content

/-- `NoOpValidator.validate`: returns the input unchanged. -/
def NoOpValidator.validate (data : Value) : Value :=
  data

/-- A pydantic model field: its name and the kind of value it requires
(`any` for unannotated/`Any` fields). -/
inductive FieldKind where
  | str
  | int
  | bool
  | any
  deriving DecidableEq

/-- Whether a value satisfies a field's kind. -/
def FieldKind.matches : FieldKind → Value → Bool
  | .str, .str _ => true
  | .int, .int _ => true
  | .bool, .bool _ => true
  | .any, _ => true
  | _, _ => false

/-- A pydantic model type, given by its field schema. -/
structure ModelClass where
  fields : List (String × FieldKind)

/-- Validation of one field against the input mapping: the field must be
present (pydantic's `Field required`) and match its kind. -/
def validateField (data : List (String × Value)) (f : String × FieldKind) :
    Except String (String × Value) :=
  match dictGet data f.1 with
  | none => .error ("Field required: " ++ f.1)
  | some v =>
    if f.2.matches v then .ok (f.1, v)
    else .error ("Input should be a valid " ++ f.1)

/-- Models `pydantic.BaseModel.model_validate` with the default model
config: the input must be a mapping; each declared field is taken from
it and checked; input keys that are not declared fields are ignored
(default `extra="ignore"` behaviour).  The resulting instance is
represented by its field mapping. -/
def model_validate (cls : ModelClass) (data : Value) :
    Except String (List (String × Value)) :=
  match data with
  | .dict entries => cls.fields.mapM (validateField entries)
  | _ => .error "Input should be a valid dictionary"

/-- `PydanticValidator.validate`: `model_class.model_validate(data)`,
re-raising any failure as `ValueError("Pydantic validation failed: {e}")`
from `e`. -/
def PydanticValidator.validate (cls : ModelClass) (data : Value) : Except PyError Value :=
  match model_validate cls data with
  | .ok out => .ok (.dict out)
  | .error e => .error (.valueError ("Pydantic validation failed: " ++ e) e)

/-- The validator strategies: the two classes of `validators.py`, or a
user-supplied one. -/
inductive Validator where
  | noop
  | pydantic (cls : ModelClass)
  | custom (validateImpl : Value → Except PyError Value)

/-- Calling `validate` on a validator. -/
def Validator.validate : Validator → Value → Except PyError Value
  | .noop, data => .ok (NoOpValidator.validate data)
  | .pydantic cls, data => PydanticValidator.validate cls data
  | .custom f, data => f data

/-- The state of a `DataReader` instance: its two registries and its
default validator. -/
structure DataReader where
  reader_classes : List (String × ReaderClass)
  fetcher_classes : List (String × FetcherClass)
  default_validator : Validator

/-- `DataReader.DEFAULT_SCHEMA`. -/
def DataReader.DEFAULT_SCHEMA : String := "file"

/-- `DataReader.__init__(default_validator=None)`: fresh registries with
the three default readers and the three default fetchers; the default
validator is the argument, or a `NoOpValidator` when it is `None`. -/
def DataReader.init (default_validator : Option Validator) : DataReader :=
  { reader_classes :=
      [(".json", .jsonReader), (".yaml", .yamlReader), (".yml", .yamlReader)]
    fetcher_classes :=
      [("file", .fileFetcher), ("http", .httpFetcher), ("https", .httpFetcher)]
    default_validator := default_validator.getD .noop }

/-- `DataReader.register_reader`: stores the class under the lower-cased
extension. -/
def DataReader.register_reader (r : DataReader) (extension : String)
    (reader_class : ReaderClass) : DataReader :=
  { r with reader_classes := dictSet r.reader_classes (pyLower extension) reader_class }

/-- `DataReader.register_fetcher`: stores the class under the lower-cased
scheme. -/
def DataReader.register_fetcher (r : DataReader) (scheme : String)
    (fetcher_class : FetcherClass) : DataReader :=
  { r with fetcher_classes := dictSet r.fetcher_classes (pyLower scheme) fetcher_class }

/-- `DataReader._create_fetcher`: looks the scheme up in the fetcher
registry; `UnsupportedSchemeError` when absent. -/
def DataReader.create_fetcher (r : DataReader) (scheme : String) :
    Except PyError FetcherClass :=
  match dictGet r.fetcher_classes scheme with
  | none => .error (.unsupportedScheme ("No fetcher registered for scheme: " ++ scheme))
  | some fetcher_class => .ok fetcher_class

/-- `DataReader._create_reader`: looks the extension up in the reader
registry; `UnsupportedExtensionError` when absent. -/
def DataReader.create_reader (r : DataReader) (extension : String) :
    Except PyError ReaderClass :=
  match dictGet r.reader_classes extension with
  | none => .error (.unsupportedExtension ("No reader registered for extension: " ++ extension))
  | some reader_class => .ok reader_class

/-- The scheme-resolution step of `load_from`: the parsed scheme when it
is a key of the fetcher registry, else `DEFAULT_SCHEMA`. -/
def DataReader.resolve_scheme (r : DataReader) (file_location : String) : String :=
  if (dictGet r.fetcher_classes (urlScheme file_location)).isSome then
    urlScheme file_location
  else
    DataReader.DEFAULT_SCHEMA

/-- The path whose suffix `load_from` inspects: the URL's path component
when the location parsed with a (truthy, i.e. nonempty) scheme, else the
whole location string. -/
def DataReader.path_for (file_location : String) : String :=
  if urlScheme file_location ≠ "" then urlPath file_location else file_location

/-- The raw (not yet lower-cased) `Path(path).suffix` of a location. -/
def DataReader.raw_suffix (file_location : String) : String :=
  pathSuffix (DataReader.path_for file_location)

/-- The extension `load_from` derives: `Path(path).suffix.lower()`. -/
def DataReader.extension_of (file_location : String) : String :=
  pyLower (DataReader.raw_suffix file_location)

/-- `DataReader.load_from`: resolve the scheme, derive the extension,
create the fetcher then the reader (each failing with its registry
error), fetch the raw text handing the fetcher the whole original
location, parse it, and run the explicitly-passed validator or else the
instance's default one.  The second component is the trace of fetch
effects the call performed. -/
def DataReader.load_from (libs : Libs) (w : World) (r : DataReader)
    (file_location : String) (validator : Option Validator) :
    Except PyError Value × List Effect :=
  let scheme := r.resolve_scheme file_location
  let extension := DataReader.extension_of file_location
  match r.create_fetcher scheme with
  | .error e => (.error e, [])
  | .ok fetcher =>
    match r.create_reader extension with
    | .error e => (.error e, [])
    | .ok reader =>
      match fetcher.fetch libs w file_location with
      | (.error e, effects) => (.error e, effects)
      | (.ok content, effects) =>
        match reader.read_content libs content with
        | .error e => (.error e, effects)
        | .ok data =>
          let active_validator := validator.getD r.default_validator
          (active_validator.validate data, effects)

/-- State-passing form of `load_from`: the method's body reads but never
assigns any field of `self`, so its translation returns the instance
state unchanged alongside the result. -/
def DataReader.load_fromS (libs : Libs) (w : World) (r : DataReader)
    (file_location : String) (validator : Option Validator) :
    (Except PyError Value × List Effect) × DataReader :=
  (DataReader.load_from libs w r file_location validator, r)

/-! ### Lemmas about the dict model -/

theorem dictGet_dictSet {α : Type} (d : List (String × α)) (k k' : String) (v : α) :
    dictGet (dictSet d k v) k' = if k' = k then some v else dictGet d k' := by
  induction d with
  | nil =>
    by_cases h : k' = k
    · subst h
      simp [dictSet, dictGet]
    · simp [dictSet, dictGet, h, Ne.symm h]
  | cons p rest ih =>
    obtain ⟨pk, pv⟩ := p
    by_cases hpk : pk = k
    · subst hpk
      by_cases h : k' = pk
      · subst h
        simp [dictSet, dictGet]
      · simp [dictSet, dictGet, h, Ne.symm h]
    · by_cases h : pk = k'
      · subst h
        have hk : ¬ pk = k := hpk
        simp [dictSet, dictGet, hpk, hk]
      · simp [dictSet, dictGet, hpk, h, ih]

theorem dictGet_dictSet_isSome {α : Type} (d : List (String × α)) (k k' : String) (v : α)
    (h : (dictGet d k').isSome) : (dictGet (dictSet d k v) k').isSome := by
  rw [dictGet_dictSet]
  by_cases hk : k' = k <;> simp [hk, h]

theorem dictGet_mem {α : Type} (d : List (String × α)) (key : String) (v : α)
    (h : dictGet d key = some v) : (key, v) ∈ d := by
  induction d with
  | nil => simp [dictGet] at h
  | cons p rest ih =>
    obtain ⟨pk, pv⟩ := p
    by_cases hpk : pk = key
    · subst hpk
      simp [dictGet] at h
      simp [h]
    · simp [dictGet, hpk] at h
      exact List.mem_cons_of_mem _ (ih h)

/-! ### Stepping lemmas for `load_from` -/

theorem load_from_scheme_error (libs : Libs) (w : World) (r : DataReader)
    (loc : String) (val : Option Validator) (e : PyError)
    (hf : r.create_fetcher (r.resolve_scheme loc) = .error e) :
    DataReader.load_from libs w r loc val = (.error e, []) := by
  simp only [DataReader.load_from]
  rw [hf]

theorem load_from_ext_error (libs : Libs) (w : World) (r : DataReader)
    (loc : String) (val : Option Validator) (f : FetcherClass) (e : PyError)
    (hf : r.create_fetcher (r.resolve_scheme loc) = .ok f)
    (hr : r.create_reader (DataReader.extension_of loc) = .error e) :
    DataReader.load_from libs w r loc val = (.error e, []) := by
  simp only [DataReader.load_from]
  rw [hf, hr]

theorem load_from_eq (libs : Libs) (w : World) (r : DataReader)
    (loc : String) (val : Option Validator) (f : FetcherClass) (rd : ReaderClass)
    (hf : r.create_fetcher (r.resolve_scheme loc) = .ok f)
    (hr : r.create_reader (DataReader.extension_of loc) = .ok rd) :
    DataReader.load_from libs w r loc val =
      match f.fetch libs w loc with
      | (.error e, effects) => (.error e, effects)
      | (.ok content, effects) =>
        match rd.read_content libs content with
        | .error e => (.error e, effects)
        | .ok data => ((val.getD r.default_validator).validate data, effects) := by
  simp only [DataReader.load_from]
  rw [hf, hr]

theorem create_fetcher_resolve_ok (r : DataReader) (loc : String)
    (hfile : (dictGet r.fetcher_classes "file").isSome) :
    ∃ f, dictGet r.fetcher_classes (r.resolve_scheme loc) = some f
      ∧ r.create_fetcher (r.resolve_scheme loc) = .ok f := by
  unfold DataReader.resolve_scheme
  by_cases h : (dictGet r.fetcher_classes (urlScheme loc)).isSome
  · obtain ⟨f, hf⟩ := Option.isSome_iff_exists.mp h
    exact ⟨f, by simp [h, hf, DataReader.create_fetcher]⟩
  · obtain ⟨f, hf⟩ := Option.isSome_iff_exists.mp hfile
    refine ⟨f, ?_⟩
    simp only [h, if_false, DataReader.DEFAULT_SCHEMA]
    simp [hf, DataReader.create_fetcher]

theorem resolve_init_of_not_registered (dv : Option Validator) (loc : String)
    (h : urlScheme loc = ""
      ∨ dictGet (DataReader.init dv).fetcher_classes (urlScheme loc) = none) :
    DataReader.resolve_scheme (DataReader.init dv) loc = "file" := by
  unfold DataReader.resolve_scheme
  rcases h with h | h
  · rw [h]
    simp [DataReader.init, dictGet, DataReader.DEFAULT_SCHEMA]
  · rw [h]
    simp [DataReader.DEFAULT_SCHEMA]

theorem fileFetcher_fetch_effects (libs : Libs) (w : World) (loc : String) :
    (FetcherClass.fileFetcher.fetch libs w loc).2 = [.fsAccess loc] :=
  rfl

theorem httpFetcher_fetch_effects (libs : Libs) (w : World) (loc : String) :
    (FetcherClass.httpFetcher.fetch libs w loc).2 = [.httpGet loc] :=
  rfl

theorem load_from_effects (libs : Libs) (w : World) (r : DataReader)
    (loc : String) (val : Option Validator) (f : FetcherClass) (rd : ReaderClass)
    (hf : r.create_fetcher (r.resolve_scheme loc) = .ok f)
    (hr : r.create_reader (DataReader.extension_of loc) = .ok rd) :
    (DataReader.load_from libs w r loc val).2 = (f.fetch libs w loc).2 := by
  rw [load_from_eq libs w r loc val f rd hf hr]
  rcases hE : f.fetch libs w loc with ⟨res, effs⟩
  cases res with
  | error e => rfl
  | ok content =>
    rcases hR : ReaderClass.read_content libs rd content with e | data <;> simp [hR]

/-! ### Example inputs for witnesses -/

/-- Concrete external libraries for evaluating the model on closed
inputs: a JSON parser knowing the text `{}`, a YAML parser knowing the
text `k: v`, and a deterministic status-error message. -/
def exLibs : Libs :=
  { json_loads := fun s => if s = "{}" then .ok (.dict []) else .error "Expecting value"
    yaml_safe_load := fun s => if s = "k: v" then .ok (.dict [("k", .str "v")]) else .error "parse error"
    status_error := fun status url => "status " ++ toString status ++ " for url " ++ url }

/-- Concrete world: two existing files, a network that answers 404. -/
def exWorld : World :=
  { fs := fun p =>
      if p = "/a/b.json" then some "{}" else if p = "test.json" then some "{}" else none
    net := fun _ => .response 404 "not found" }

/-! ### The claims -/

/-- C1: for every location whose parsed URL scheme is absent or is not a
key of the default `DataReader`'s fetcher registry, `load_from` resolves
the scheme to `"file"` and dispatches to the file fetcher; in
particular, loading `ftp://x/y.json` when that string is not an existing
file fails with the file fetcher's not-found error, not an
unsupported-scheme error. -/
theorem unknown_scheme_treated_as_local_file (libs : Libs) (w : World)
    (loc : String) (val : Option Validator)
    (hscheme : urlScheme loc = ""
      ∨ dictGet (DataReader.init none).fetcher_classes (urlScheme loc) = none) :
    DataReader.resolve_scheme (DataReader.init none) loc = "file"
    ∧ (DataReader.init none).create_fetcher
        (DataReader.resolve_scheme (DataReader.init none) loc) = .ok .fileFetcher
    ∧ (w.fs "ftp://x/y.json" = none →
        DataReader.load_from libs w (DataReader.init none) "ftp://x/y.json" val
          = (.error (.fileNotFound "File does not exist: ftp://x/y.json"),
             [.fsAccess "ftp://x/y.json"])) := by
  have hres := resolve_init_of_not_registered none loc hscheme
  refine ⟨hres, ?_, ?_⟩
  · rw [hres]
    rfl
  · intro hfs
    have e1 : DataReader.resolve_scheme (DataReader.init none) "ftp://x/y.json" = "file" := by
      decide
    have hf : (DataReader.init none).create_fetcher
        (DataReader.resolve_scheme (DataReader.init none) "ftp://x/y.json")
          = .ok .fileFetcher := by
      rw [e1]
      rfl
    have e2 : DataReader.extension_of "ftp://x/y.json" = ".json" := by decide
    have hrd : (DataReader.init none).create_reader
        (DataReader.extension_of "ftp://x/y.json") = .ok .jsonReader := by
      rw [e2]
      rfl
    rw [load_from_eq libs w _ _ val _ _ hf hrd]
    simp only [FetcherClass.fetch, FileContentFetcher.fetch, hfs]
    rfl

/-- Witness for C1 at the concrete location `ftp://x/y.json` in a world
where no file of that name exists. -/
theorem unknown_scheme_treated_as_local_file_witness :
    dictGet (DataReader.init none).fetcher_classes (urlScheme "ftp://x/y.json") = none
    ∧ DataReader.load_from exLibs exWorld (DataReader.init none) "ftp://x/y.json" none
        = (.error (.fileNotFound "File does not exist: ftp://x/y.json"),
           [.fsAccess "ftp://x/y.json"]) := by
  have h := unknown_scheme_treated_as_local_file exLibs exWorld "ftp://x/y.json" none
    (Or.inr rfl)
  exact ⟨rfl, h.2.2 rfl⟩

/-- C2: for every location whose derived extension has no registered
reader (in any `DataReader` whose fetcher registry still has the `file`
key), `load_from` fails with the unsupported-extension error naming that
exact extension, and performs no filesystem or network fetch. -/
theorem unregistered_extension_fails_before_fetch (libs : Libs) (w : World)
    (r : DataReader) (loc : String) (val : Option Validator)
    (hfile : (dictGet r.fetcher_classes "file").isSome)
    (hext : dictGet r.reader_classes (DataReader.extension_of loc) = none) :
    DataReader.load_from libs w r loc val
      = (.error (.unsupportedExtension
          ("No reader registered for extension: " ++ DataReader.extension_of loc)), []) := by
  obtain ⟨f, -, hf⟩ := create_fetcher_resolve_ok r loc hfile
  have hr : r.create_reader (DataReader.extension_of loc)
      = .error (.unsupportedExtension
          ("No reader registered for extension: " ++ DataReader.extension_of loc)) := by
    unfold DataReader.create_reader
    rw [hext]
  exact load_from_ext_error libs w r loc val f _ hf hr

/-- Witness for C2: loading `x.xyz` on the default reader fails with the
unsupported-extension error naming `.xyz` and an empty fetch trace. -/
theorem unregistered_extension_fails_before_fetch_witness :
    DataReader.load_from exLibs exWorld (DataReader.init none) "x.xyz" none
      = (.error (.unsupportedExtension "No reader registered for extension: .xyz"), []) := by
  have h := unregistered_extension_fails_before_fetch exLibs exWorld
    (DataReader.init none) "x.xyz" none (by decide) rfl
  exact h

/-- C3: for every existing local file (scheme-less location) whose
derived extension is `.json`, `.yaml` or `.yml` and whose content the
corresponding parser accepts, `load_from` on the default `DataReader`
(no-op validator) returns exactly the value obtained by parsing the
file's text directly with that parser. -/
theorem load_equals_direct_parse (libs : Libs) (w : World)
    (loc content : String) (v : Value)
    (hscheme : urlScheme loc = "")
    (hfs : w.fs loc = some content)
    (hparse :
      (DataReader.extension_of loc = ".json" ∧ libs.json_loads content = .ok v)
      ∨ ((DataReader.extension_of loc = ".yaml" ∨ DataReader.extension_of loc = ".yml")
          ∧ libs.yaml_safe_load content = .ok v)) :
    DataReader.load_from libs w (DataReader.init none) loc none
      = (.ok v, [.fsAccess loc]) := by
  have hres := resolve_init_of_not_registered none loc (Or.inl hscheme)
  have hf : (DataReader.init none).create_fetcher
      (DataReader.resolve_scheme (DataReader.init none) loc) = .ok .fileFetcher := by
    rw [hres]
    rfl
  rcases hparse with ⟨hext, hp⟩ | ⟨hext, hp⟩
  · have hrd : (DataReader.init none).create_reader (DataReader.extension_of loc)
        = .ok .jsonReader := by
      rw [hext]
      rfl
    rw [load_from_eq libs w _ loc none _ _ hf hrd]
    simp only [FetcherClass.fetch, FileContentFetcher.fetch, hfs,
      ReaderClass.read_content, JsonReader.read_content, hp, DataReader.init,
      Option.getD, Validator.validate, NoOpValidator.validate]
  · have hrd : (DataReader.init none).create_reader (DataReader.extension_of loc)
        = .ok .yamlReader := by
      rcases hext with hext | hext <;> rw [hext] <;> rfl
    rw [load_from_eq libs w _ loc none _ _ hf hrd]
    simp only [FetcherClass.fetch, FileContentFetcher.fetch, hfs,
      ReaderClass.read_content, YamlReader.read_content, hp, DataReader.init,
      Option.getD, Validator.validate, NoOpValidator.validate]

/-- Witness for C3: loading the existing file `test.json` (content `{}`)
returns exactly what the JSON parser returns on `{}`. -/
theorem load_equals_direct_parse_witness :
    exLibs.json_loads "{}" = .ok (.dict [])
    ∧ DataReader.load_from exLibs exWorld (DataReader.init none) "test.json" none
        = (.ok (.dict []), [.fsAccess "test.json"]) := by
  have h := load_equals_direct_parse exLibs exWorld "test.json" "{}" (.dict [])
    rfl rfl (Or.inl ⟨by decide, rfl⟩)
  exact ⟨rfl, h⟩

/-- The `DataReader` states reachable through the public API: built by
the constructor and mutated only by `register_reader` and
`register_fetcher` calls. -/
inductive Reachable : DataReader → Prop where
  | init (dv : Option Validator) : Reachable (DataReader.init dv)
  | register_reader {r : DataReader} (extension : String) (cls : ReaderClass) :
      Reachable r → Reachable (r.register_reader extension cls)
  | register_fetcher {r : DataReader} (scheme : String) (cls : FetcherClass) :
      Reachable r → Reachable (r.register_fetcher scheme cls)

theorem reachable_file_key (r : DataReader) (h : Reachable r) :
    (dictGet r.fetcher_classes "file").isSome := by
  induction h with
  | init dv => rfl
  | register_reader e c _ ih =>
    simpa [DataReader.register_reader] using ih
  | register_fetcher s c _ ih =>
    simp only [DataReader.register_fetcher]
    exact dictGet_dictSet_isSome _ _ _ _ ih

/-- A reader registry holding only the repository's own reader classes. -/
def builtin_readers (r : DataReader) : Prop :=
  ∀ p ∈ r.reader_classes, p.2 = ReaderClass.jsonReader ∨ p.2 = ReaderClass.yamlReader

/-- A fetcher registry holding only the repository's own fetcher classes. -/
def builtin_fetchers (r : DataReader) : Prop :=
  ∀ p ∈ r.fetcher_classes, p.2 = FetcherClass.fileFetcher ∨ p.2 = FetcherClass.httpFetcher

/-- The repository's own validator strategies. -/
def builtin_validator : Validator → Prop
  | .noop => True
  | .pydantic _ => True
  | .custom _ => False

theorem create_reader_error_shape (r : DataReader) (ext : String) (e : PyError)
    (h : r.create_reader ext = .error e) :
    e = .unsupportedExtension ("No reader registered for extension: " ++ ext) := by
  unfold DataReader.create_reader at h
  rcases hd : dictGet r.reader_classes ext with _ | c <;> rw [hd] at h
  · simp only [Except.error.injEq] at h
    exact h.symm
  · cases h

theorem create_reader_ok_get (r : DataReader) (ext : String) (rd : ReaderClass)
    (h : r.create_reader ext = .ok rd) :
    dictGet r.reader_classes ext = some rd := by
  unfold DataReader.create_reader at h
  rcases hd : dictGet r.reader_classes ext with _ | c <;> rw [hd] at h
  · cases h
  · simp only [Except.ok.injEq] at h
    rw [h]

theorem fetch_no_scheme_error (libs : Libs) (w : World) (loc msg : String)
    (f : FetcherClass) (hb : f = .fileFetcher ∨ f = .httpFetcher) :
    (f.fetch libs w loc).1 ≠ .error (.unsupportedScheme msg) := by
  rcases hb with h | h <;> subst h
  · simp only [FetcherClass.fetch, FileContentFetcher.fetch]
    rcases hw : w.fs loc with _ | c <;> simp [hw]
  · simp only [FetcherClass.fetch, HttpContentFetcher.fetch]
    rcases hn : w.net loc with e | ⟨st, b⟩
    · simp [hn]
    · by_cases hs : is_success st <;> simp [hn, hs]

theorem read_no_scheme_error (libs : Libs) (content msg : String)
    (rd : ReaderClass) (hb : rd = .jsonReader ∨ rd = .yamlReader) :
    rd.read_content libs content ≠ .error (.unsupportedScheme msg) := by
  rcases hb with h | h <;> subst h
  · simp only [ReaderClass.read_content, JsonReader.read_content]
    rcases hj : libs.json_loads content with e | v <;> simp [hj]
  · simp only [ReaderClass.read_content, YamlReader.read_content]
    rcases hy : libs.yaml_safe_load content with e | v <;> simp [hy]

theorem validate_no_scheme_error (v : Validator) (data : Value) (msg : String)
    (hb : builtin_validator v) :
    v.validate data ≠ .error (.unsupportedScheme msg) := by
  cases v with
  | noop => simp [Validator.validate]
  | pydantic cls =>
    simp only [Validator.validate, PydanticValidator.validate]
    rcases hm : model_validate cls data with e | out <;> simp [hm]
  | custom f => exact hb.elim

/-- C4: on every `DataReader` built by the constructor and mutated only
through the registration calls, the scheme `load_from` resolves is
always a key of the fetcher registry (the fallback scheme `file` is
present from construction and can be overwritten but never removed);
hence, as long as the registered strategies are the repository's own
classes, `load_from` never fails with the unsupported-scheme error. -/
theorem scheme_dispatch_never_fails (r : DataReader) (hr : Reachable r) :
    (∀ loc, (dictGet r.fetcher_classes (r.resolve_scheme loc)).isSome)
    ∧ (builtin_fetchers r → builtin_readers r →
        ∀ (libs : Libs) (w : World) (loc : String) (val : Option Validator),
          builtin_validator (val.getD r.default_validator) →
          ∀ msg, (DataReader.load_from libs w r loc val).1
            ≠ .error (.unsupportedScheme msg)) := by
  have hfile := reachable_file_key r hr
  constructor
  · intro loc
    obtain ⟨f, hg, -⟩ := create_fetcher_resolve_ok r loc hfile
    simp [hg]
  · intro hbf hbr libs w loc val hbv msg
    obtain ⟨f, hg, hcf⟩ := create_fetcher_resolve_ok r loc hfile
    have hfb : f = .fileFetcher ∨ f = .httpFetcher := hbf _ (dictGet_mem _ _ _ hg)
    rcases hcr : r.create_reader (DataReader.extension_of loc) with e | rd
    · rw [load_from_ext_error libs w r loc val f e hcf hcr]
      rw [create_reader_error_shape r _ e hcr]
      simp
    · have hrb : rd = .jsonReader ∨ rd = .yamlReader :=
        hbr _ (dictGet_mem _ _ _ (create_reader_ok_get r _ rd hcr))
      rw [load_from_eq libs w r loc val f rd hcf hcr]
      have hfe := fetch_no_scheme_error libs w loc msg f hfb
      rcases hE : f.fetch libs w loc with ⟨res, effs⟩
      rw [hE] at hfe
      cases res with
      | error e => simpa using hfe
      | ok content =>
        have hre := read_no_scheme_error libs content msg rd hrb
        rcases hR : rd.read_content libs content with e | data
        · rw [hR] at hre
          simpa [hR] using hre
        · have hve := validate_no_scheme_error (val.getD r.default_validator) data msg hbv
          simpa [hR] using hve

/-- Witness for C4 on the reachable `DataReader` obtained by registering
an extra `S3` fetcher over the defaults, at a location with the
unregistered scheme `ftp`: the resolved scheme is a registry key, and
the load does not fail with the unsupported-scheme error. -/
theorem scheme_dispatch_never_fails_witness :
    (dictGet ((DataReader.init none).register_fetcher "S3"
        FetcherClass.httpFetcher).fetcher_classes
      (((DataReader.init none).register_fetcher "S3"
        FetcherClass.httpFetcher).resolve_scheme "ftp://x/y.json")).isSome
    ∧ (DataReader.load_from exLibs exWorld
        ((DataReader.init none).register_fetcher "S3" FetcherClass.httpFetcher)
        "ftp://x/y.json" none).1
      ≠ .error (.unsupportedScheme "No fetcher registered for scheme: ftp") := by
  have h := scheme_dispatch_never_fails
    ((DataReader.init none).register_fetcher "S3" FetcherClass.httpFetcher)
    (Reachable.register_fetcher "S3" FetcherClass.httpFetcher (Reachable.init none))
  refine ⟨h.1 "ftp://x/y.json", h.2 ?_ ?_ exLibs exWorld "ftp://x/y.json" none ?_ _⟩
  · intro p hp
    have hlist : ((DataReader.init none).register_fetcher "S3"
        FetcherClass.httpFetcher).fetcher_classes
        = [("file", .fileFetcher), ("http", .httpFetcher), ("https", .httpFetcher),
           ("s3", .httpFetcher)] := rfl
    rw [hlist] at hp
    simp only [List.mem_cons, List.not_mem_nil, or_false] at hp
    rcases hp with rfl | rfl | rfl | rfl
    exacts [Or.inl rfl, Or.inr rfl, Or.inr rfl, Or.inr rfl]
  · intro p hp
    have hlist : ((DataReader.init none).register_fetcher "S3"
        FetcherClass.httpFetcher).reader_classes
        = [(".json", .jsonReader), (".yaml", .yamlReader), (".yml", .yamlReader)] := rfl
    rw [hlist] at hp
    simp only [List.mem_cons, List.not_mem_nil, or_false] at hp
    rcases hp with rfl | rfl | rfl
    exacts [Or.inl rfl, Or.inr rfl, Or.inr rfl]
  · exact trivial

/-- Decidable per-field conformance of an input mapping to a model
field: the field is present and its value matches the field's kind. -/
def fieldOk (entries : List (String × Value)) (f : String × FieldKind) : Bool :=
  match dictGet entries f.1 with
  | some v => f.2.matches v
  | none => false

/-- Decidable conformance of an input mapping to a model class: every
declared field is present and matches (extra keys are irrelevant). -/
def conforms (cls : ModelClass) (entries : List (String × Value)) : Bool :=
  cls.fields.all (fieldOk entries)

theorem mapM_validateField_ok (fields : List (String × FieldKind))
    (entries : List (String × Value))
    (h : fields.all (fieldOk entries) = true) :
    fields.mapM (validateField entries)
      = .ok (fields.map (fun f => (f.1, (dictGet entries f.1).getD .null))) := by
  induction fields with
  | nil => rfl
  | cons f fs ih =>
    rw [List.all_cons, Bool.and_eq_true] at h
    obtain ⟨h1, h2⟩ := h
    rcases hd : dictGet entries f.1 with _ | v
    · simp [fieldOk, hd] at h1
    · simp only [fieldOk, hd] at h1
      have hv : validateField entries f = .ok (f.1, v) := by
        unfold validateField
        rw [hd]
        simp [h1]
      rw [List.mapM_cons, hv, ih h2]
      simp only [List.map_cons, hd, Option.getD_some]
      rfl

theorem mapM_validateField_err (fields : List (String × FieldKind))
    (entries : List (String × Value))
    (h : fields.all (fieldOk entries) = false) :
    ∃ e, fields.mapM (validateField entries) = .error e := by
  induction fields with
  | nil => simp [List.all_nil] at h
  | cons f fs ih =>
    rw [List.all_cons, Bool.and_eq_false_iff] at h
    rcases hd : dictGet entries f.1 with _ | v
    · refine ⟨"Field required: " ++ f.1, ?_⟩
      have hv : validateField entries f = .error ("Field required: " ++ f.1) := by
        unfold validateField
        rw [hd]
      rw [List.mapM_cons, hv]
      rfl
    · by_cases hm : f.2.matches v = true
      · have h2 : fs.all (fieldOk entries) = false := by
          rcases h with h | h
          · simp only [fieldOk, hd] at h
            rw [hm] at h
            cases h
          · exact h
        obtain ⟨e, he⟩ := ih h2
        refine ⟨e, ?_⟩
        have hv : validateField entries f = .ok (f.1, v) := by
          unfold validateField
          rw [hd]
          simp [hm]
        rw [List.mapM_cons, hv, he]
        rfl
      · refine ⟨"Input should be a valid " ++ f.1, ?_⟩
        have hv : validateField entries f
            = .error ("Input should be a valid " ++ f.1) := by
          unfold validateField
          rw [hd]
          simp [hm]
        rw [List.mapM_cons, hv]
        rfl

/-- C6: `PydanticValidator.validate` on a mapping that conforms to the
model class returns the model instance whose fields are exactly the
corresponding input fields (extra input keys are ignored, not
rejected); on any non-conforming value it raises the value error that
embeds the underlying validation error. -/
theorem pydantic_validator_conformance (cls : ModelClass)
    (entries : List (String × Value)) (data : Value) :
    (conforms cls entries = true →
      PydanticValidator.validate cls (.dict entries)
        = .ok (.dict (cls.fields.map (fun f => (f.1, (dictGet entries f.1).getD .null)))))
    ∧ ((∀ es, data = .dict es → conforms cls es = false) →
        ∃ e, PydanticValidator.validate cls data
          = .error (.valueError ("Pydantic validation failed: " ++ e) e)) := by
  constructor
  · intro h
    simp only [PydanticValidator.validate, model_validate]
    rw [mapM_validateField_ok cls.fields entries h]
  · intro h
    rcases data with _ | b | n | s | xs | es
    · exact ⟨"Input should be a valid dictionary", rfl⟩
    · exact ⟨"Input should be a valid dictionary", rfl⟩
    · exact ⟨"Input should be a valid dictionary", rfl⟩
    · exact ⟨"Input should be a valid dictionary", rfl⟩
    · exact ⟨"Input should be a valid dictionary", rfl⟩
    · obtain ⟨e, he⟩ := mapM_validateField_err cls.fields es (h es rfl)
      refine ⟨e, ?_⟩
      simp only [PydanticValidator.validate, model_validate]
      rw [he]

/-- Witness for C6 on the model with one required `str` field `name`:
conforming input with an extra key validates to the instance with the
input's `name` field, non-conforming input (wrong kind) fails with the
wrapping value error. -/
theorem pydantic_validator_conformance_witness :
    PydanticValidator.validate ⟨[("name", .str)]⟩
        (.dict [("name", .str "a"), ("extra", .int 1)])
      = .ok (.dict [("name", .str "a")])
    ∧ ∃ e, PydanticValidator.validate ⟨[("name", .str)]⟩ (.dict [("name", .int 5)])
        = .error (.valueError ("Pydantic validation failed: " ++ e) e) := by
  constructor
  · exact (pydantic_validator_conformance ⟨[("name", FieldKind.str)]⟩
      [("name", .str "a"), ("extra", .int 1)] .null).1 (by decide)
  · exact (pydantic_validator_conformance ⟨[("name", FieldKind.str)]⟩ []
      (.dict [("name", .int 5)])).2 (by intro es hes; cases hes; decide)

/-- C7: extension handling is case-insensitive end to end:
`register_reader` stores under the lower-cased extension, the derived
extension is the lower-cased raw suffix so two locations whose raw
suffixes agree up to case resolve to the same reader, and in particular
`test.JSON` and `test.json` derive the same extension. -/
theorem extension_handling_case_insensitive (r : DataReader) (extension : String)
    (cls : ReaderClass) (loc1 loc2 : String) :
    dictGet (r.register_reader extension cls).reader_classes (pyLower extension) = some cls
    ∧ (pyLower (DataReader.raw_suffix loc1) = pyLower (DataReader.raw_suffix loc2) →
        r.create_reader (DataReader.extension_of loc1)
          = r.create_reader (DataReader.extension_of loc2))
    ∧ DataReader.extension_of "test.JSON" = DataReader.extension_of "test.json" := by
  refine ⟨?_, ?_, ?_⟩
  · simp [DataReader.register_reader, dictGet_dictSet]
  · intro h
    unfold DataReader.extension_of
    rw [h]
  · decide

/-- Witness for C7: a registration under `.XML` lands on key `.xml`, the
locations `a.YML` and `b.yml` resolve to the same reader, `test.JSON`
and `test.json` derive the same extension. -/
theorem extension_handling_case_insensitive_witness :
    dictGet ((DataReader.init none).register_reader ".XML" .yamlReader).reader_classes
        (pyLower ".XML") = some .yamlReader
    ∧ (DataReader.init none).create_reader (DataReader.extension_of "a.YML")
        = (DataReader.init none).create_reader (DataReader.extension_of "b.yml")
    ∧ DataReader.extension_of "test.JSON" = DataReader.extension_of "test.json" := by
  have h := extension_handling_case_insensitive (DataReader.init none) ".XML"
    .yamlReader "a.YML" "b.yml"
  exact ⟨h.1, h.2.1 (by decide), h.2.2⟩

/-- C8: `NoOpValidator.validate` returns its input itself (the identity;
the Python method returns the very same reference), so validating
through the no-op strategy yields the parsed value unchanged. -/
theorem noop_validator_identity (d : Value) :
    NoOpValidator.validate d = d ∧ Validator.noop.validate d = .ok d :=
  ⟨rfl, rfl⟩

/-- C9: the registries are per-instance state touched only by the
registration calls: each registration changes exactly its own key of its
own mapping and leaves the other mapping and the default validator
unchanged, `load_from` leaves the whole instance state unchanged, and
construction always produces the same fresh literal registries. -/
theorem registry_ownership_and_frame (r : DataReader) (extension scheme : String)
    (rc : ReaderClass) (fc : FetcherClass) (libs : Libs) (w : World)
    (loc : String) (val : Option Validator) (k : String) :
    dictGet (r.register_reader extension rc).reader_classes k
        = (if k = pyLower extension then some rc else dictGet r.reader_classes k)
    ∧ (r.register_reader extension rc).fetcher_classes = r.fetcher_classes
    ∧ (r.register_reader extension rc).default_validator = r.default_validator
    ∧ dictGet (r.register_fetcher scheme fc).fetcher_classes k
        = (if k = pyLower scheme then some fc else dictGet r.fetcher_classes k)
    ∧ (r.register_fetcher scheme fc).reader_classes = r.reader_classes
    ∧ (r.register_fetcher scheme fc).default_validator = r.default_validator
    ∧ (DataReader.load_fromS libs w r loc val).2 = r
    ∧ (DataReader.init val).reader_classes
        = [(".json", .jsonReader), (".yaml", .yamlReader), (".yml", .yamlReader)]
    ∧ (DataReader.init val).fetcher_classes
        = [("file", .fileFetcher), ("http", .httpFetcher), ("https", .httpFetcher)] := by
  refine ⟨?_, rfl, rfl, ?_, rfl, rfl, rfl, rfl, rfl⟩
  · exact dictGet_dictSet r.reader_classes (pyLower extension) k rc
  · exact dictGet_dictSet r.fetcher_classes (pyLower scheme) k fc

/-- C10: `load_from` hands the fetcher the entire original location
string (the file fetcher's access and the HTTP fetcher's GET target are
exactly the location, never the URL's path component); consequently an
explicit `file`-scheme location fails with not-found on the literal
string even when the path component alone names an existing file. -/
theorem location_passed_whole_to_fetcher (libs : Libs) (w : World)
    (val : Option Validator) (content : String)
    (_h1 : w.fs "/a/b.json" = some content)
    (h2 : w.fs "file:///a/b.json" = none) :
    DataReader.load_from libs w (DataReader.init none) "file:///a/b.json" val
      = (.error (.fileNotFound "File does not exist: file:///a/b.json"),
         [.fsAccess "file:///a/b.json"])
    ∧ (∀ (r : DataReader) (loc : String) (rd : ReaderClass),
        r.create_fetcher (r.resolve_scheme loc) = .ok .fileFetcher →
        r.create_reader (DataReader.extension_of loc) = .ok rd →
        (DataReader.load_from libs w r loc val).2 = [.fsAccess loc])
    ∧ (∀ (r : DataReader) (loc : String) (rd : ReaderClass),
        r.create_fetcher (r.resolve_scheme loc) = .ok .httpFetcher →
        r.create_reader (DataReader.extension_of loc) = .ok rd →
        (DataReader.load_from libs w r loc val).2 = [.httpGet loc]) := by
  refine ⟨?_, ?_, ?_⟩
  · have e1 : DataReader.resolve_scheme (DataReader.init none) "file:///a/b.json"
        = "file" := by decide
    have hf : (DataReader.init none).create_fetcher
        (DataReader.resolve_scheme (DataReader.init none) "file:///a/b.json")
          = .ok .fileFetcher := by
      rw [e1]
      rfl
    have e2 : DataReader.extension_of "file:///a/b.json" = ".json" := by decide
    have hrd : (DataReader.init none).create_reader
        (DataReader.extension_of "file:///a/b.json") = .ok .jsonReader := by
      rw [e2]
      rfl
    rw [load_from_eq libs w _ _ val _ _ hf hrd]
    simp only [FetcherClass.fetch, FileContentFetcher.fetch, h2]
    rfl
  · intro r loc rd hf hrd
    rw [load_from_effects libs w r loc val _ rd hf hrd]
    exact fileFetcher_fetch_effects libs w loc
  · intro r loc rd hf hrd
    rw [load_from_effects libs w r loc val _ rd hf hrd]
    exact httpFetcher_fetch_effects libs w loc

/-- C5: `HttpContentFetcher.fetch` performs exactly one GET, to the
given URL; a transport failure or a non-success status becomes the one
unified connection error `Failed to fetch from <location>: ...`
wrapping the original cause, and a success status returns the response
body. -/
theorem http_fetch_single_get_unified_error (libs : Libs)
    (net : String → GetResult) (f : HttpContentFetcher) (loc : String) :
    (HttpContentFetcher.fetch libs net f loc).2 = [loc]
    ∧ (∀ e, net loc = .transportError e →
        (HttpContentFetcher.fetch libs net f loc).1
          = .error (.connectionError ("Failed to fetch from " ++ loc ++ ": " ++ e) e))
    ∧ (∀ status body, net loc = .response status body → is_success status = false →
        (HttpContentFetcher.fetch libs net f loc).1
          = .error (.connectionError
              ("Failed to fetch from " ++ loc ++ ": " ++ libs.status_error status loc)
              (libs.status_error status loc)))
    ∧ (∀ status body, net loc = .response status body → is_success status = true →
        (HttpContentFetcher.fetch libs net f loc).1 = .ok body) := by
  refine ⟨rfl, ?_, ?_, ?_⟩
  · intro e he
    simp only [HttpContentFetcher.fetch, he]
  · intro status body hr hs
    simp only [HttpContentFetcher.fetch, hr, hs]
    rfl
  · intro status body hr hs
    simp only [HttpContentFetcher.fetch, hr, hs]
    rfl

/-- Witness for C5: a GET answered with status 404 yields the connection
error naming the location, a GET answered 200 yields the body. -/
theorem http_fetch_single_get_unified_error_witness :
    (HttpContentFetcher.fetch exLibs (fun _ => .response 404 "nf") ⟨30⟩ "http://h/p.yaml").2
        = ["http://h/p.yaml"]
    ∧ (HttpContentFetcher.fetch exLibs (fun _ => .response 404 "nf") ⟨30⟩ "http://h/p.yaml").1
        = .error (.connectionError
            ("Failed to fetch from http://h/p.yaml: "
              ++ exLibs.status_error 404 "http://h/p.yaml")
            (exLibs.status_error 404 "http://h/p.yaml"))
    ∧ (HttpContentFetcher.fetch exLibs (fun _ => .response 200 "body") ⟨30⟩ "http://ok").1
        = .ok "body" := by
  refine ⟨?_, ?_, ?_⟩
  · exact (http_fetch_single_get_unified_error exLibs (fun _ => .response 404 "nf")
      ⟨30⟩ "http://h/p.yaml").1
  · exact (http_fetch_single_get_unified_error exLibs (fun _ => .response 404 "nf")
      ⟨30⟩ "http://h/p.yaml").2.2.1 404 "nf" rfl (by decide)
  · exact (http_fetch_single_get_unified_error exLibs (fun _ => .response 200 "body")
      ⟨30⟩ "http://ok").2.2.2 200 "body" rfl (by decide)

/-- Witness for C10 in a world where `/a/b.json` exists but the literal
string `file:///a/b.json` is no file. -/
theorem location_passed_whole_to_fetcher_witness :
    exWorld.fs "/a/b.json" = some "{}"
    ∧ DataReader.load_from exLibs exWorld (DataReader.init none) "file:///a/b.json" none
        = (.error (.fileNotFound "File does not exist: file:///a/b.json"),
           [.fsAccess "file:///a/b.json"]) := by
  have h := location_passed_whole_to_fetcher exLibs exWorld none "{}" rfl rfl
  exact ⟨rfl, h.1⟩

end McpXray
